import Mathlib

/-! Shallow embedding of the Fastapi-Research-backend repository
(files `main.py` and `utils.py`) together with proofs that settle the
specification claims about it.  Python dictionaries that preserve
insertion order are modelled as lists, machine effects (uuid generation,
clock, filesystem) are passed in as explicit parameters, and the HTTP
exception flow is modelled with `Except`. -/

/-- Index of the last occurrence of a dot in a character list, counting
from `i` for the head position (helper for `pathSuffix`). -/
def lastDotAux : List Char → Nat → Option Nat
  | [], _ => none
  | c :: rest, i =>
    match lastDotAux rest (i + 1) with
    | some j => some j
    | none => if c = '.' then some i else none

/-- Extension of the final path component including the leading dot,
mirroring Python `pathlib.PurePath.suffix`: the result is empty when the
name has no dot, starts with its only dot, or ends with a dot.  The final
path component is everything after the last slash. -/
def pathSuffix (filename : String) : String :=
  let name := (filename.data.reverse.takeWhile fun c => c != '/').reverse
  match lastDotAux name 0 with
  | some i => if 0 < i && i + 1 < name.length then String.mk (name.drop i) else ""
  | none => ""

/-- Occurrence of a contiguous sub-sequence inside a character list. -/
def occursIn (needle : List Char) : List Char → Bool
  | [] => needle.isEmpty
  | c :: t => needle.isPrefixOf (c :: t) || occursIn needle t

/-- Substring membership test mirroring the Python `in` operator on
strings, adequate for the nonempty needles used by `main.py`. -/
def containsSub (haystack needle : String) : Bool :=
  occursIn needle.data haystack.data

/-- Truthiness of the optional `document_ids` field exactly as Python
evaluates it in a condition: `None` and the empty list are falsy. -/
def truthyIds : Option (List String) → Bool
  | none => false
  | some l => !l.isEmpty

/-- Lowercasing of a string character by character, mirroring Python
`str.lower` on the ASCII file extensions handled here. -/
def strLower (s : String) : String :=
  String.mk (s.data.map Char.toLower)

namespace Main

/-- Document metadata record kept in `documents_db` (main.py, lines
115 to 125). -/
structure Doc where
  id : String
  filename : String
  size : Nat
  content_type : String
  upload_date : String
  status : String
  file_path : String
  deriving DecidableEq, Repr

/-- Chat request body (main.py, lines 39 to 41). -/
structure ChatRequest where
  message : String
  document_ids : Option (List String)
  deriving DecidableEq, Repr

/-- Chat response body (main.py, lines 43 to 46); `confidence` is kept as
a rational number. -/
structure ChatResponse where
  response : String
  sources : List String
  confidence : Rat
  deriving DecidableEq, Repr

/-- Stored chat history entry (main.py, lines 238 to 244). -/
structure ChatMessage where
  id : String
  message : String
  response : String
  sources : List String
  timestamp : String
  deriving DecidableEq, Repr

/-- Upload response body (main.py, lines 56 to 60). -/
structure UploadResponse where
  document_id : String
  filename : String
  status : String
  message : String
  deriving DecidableEq, Repr

/-- An HTTPException as raised by the handlers: a status code plus a
detail string. -/
structure HErr where
  status_code : Nat
  detail : String
  deriving DecidableEq, Repr

/-- The mutable module state of `main.py`: the `documents_db` dictionary
(insertion ordered, keyed by the unique `id` field) and the
`chat_history` list. -/
structure AppState where
  documents_db : List Doc
  chat_history : List ChatMessage
  deriving DecidableEq, Repr

/-- The empty state the module starts with (main.py, lines 35 to 36). -/
def initState : AppState := { documents_db := [], chat_history := [] }

/-- Allowed upload extensions (main.py, line 95).  The source uses a set
literal; it is modelled as a list in literal order.  Python set iteration
order is unspecified, which only affects the order of names inside the
rejection message. -/
def allowed_extensions : List String := [".pdf", ".doc", ".docx", ".txt", ".md", ".rtf"]

/-- Content type guess (main.py, lines 73 to 75).  `mimetypes.guess_type`
is standard-library behaviour, approximated here by a fixed table over
the allowed extensions; no claim depends on this field. -/
def get_content_type (filename : String) : String :=
  let ext := strLower (pathSuffix filename)
  if ext == ".txt" then "text/plain"
  else if ext == ".pdf" then "application/pdf"
  else if ext == ".md" then "text/markdown"
  else if ext == ".doc" then "application/msword"
  else if ext == ".docx" then "application/vnd.openxmlformats-officedocument.wordprocessingml.document"
  else if ext == ".rtf" then "application/rtf"
  else "application/octet-stream"

/-- Detail string of the HTTPException raised for an unsupported file
type (main.py, lines 99 to 102). -/
def unsupported_detail (ext : String) : String :=
  "File type " ++ ext ++ " not supported. Allowed types: "
    ++ String.intercalate ", " allowed_extensions

/-- Result of one call of the upload handler: the value returned or the
exception raised, the state afterwards, and the background task it
spawned (the document id handed to `asyncio.create_task`), if any. -/
structure UploadOutcome where
  result : Except HErr UploadResponse
  state : AppState
  task : Option String

/-- Document record built by the upload handler (main.py, lines 115 to
123). -/
def mk_doc (newId ts filename : String) (size : Nat) : Doc :=
  { id := newId
    filename := filename
    size := size
    content_type := get_content_type filename
    upload_date := ts
    status := "processing"
    file_path := "uploads/" ++ newId ++ "_" ++ filename }

/-- Upload handler (main.py, lines 91 to 138).  `newId` stands for the
fresh `uuid.uuid4()` string and `ts` for `datetime.now().isoformat()`.
The handler raises `HTTPException(400, ...)` for a bad extension, but its
`except Exception` clause has no preceding `except HTTPException: raise`
guard, so that exception is caught and re-raised as a 500 whose detail
wraps `str(e)`, which for an HTTPException is `"400: <detail>"`. -/
def upload_document (newId ts filename : String) (size : Nat) (s : AppState) : UploadOutcome :=
  let ext := strLower (pathSuffix filename)
  if allowed_extensions.contains ext then
    { result := Except.ok
        { document_id := newId
          filename := filename
          status := "processing"
          message := "Document uploaded successfully and is being processed" }
      state := { s with documents_db := s.documents_db ++ [mk_doc newId ts filename size] }
      task := some newId }
  else
    { result := Except.error
        { status_code := 500
          detail := "Failed to upload document: 400: " ++ unsupported_detail ext }
      state := s
      task := none }

/-- Background processing task body (main.py, lines 77 to 83): after the
simulated delay, if the document id is still present in `documents_db`
its status is set to `ready`; otherwise nothing happens. -/
def process_document (document_id : String) (s : AppState) : AppState :=
  { s with documents_db := s.documents_db.map fun d =>
      if d.id == document_id then { d with status := "ready" } else d }

/-- Delete handler (main.py, lines 157 to 177): a missing id yields a 404
(re-raised unchanged thanks to the `except HTTPException: raise` guard);
otherwise the record is removed from `documents_db`. -/
def delete_document (document_id : String) (s : AppState) : Except HErr String × AppState :=
  if s.documents_db.any (fun d => d.id == document_id) then
    (Except.ok "Document deleted successfully",
     { s with documents_db := s.documents_db.filter fun d => !(d.id == document_id) })
  else
    (Except.error { status_code := 404, detail := "Document not found" }, s)

/-- The documents currently in `ready` status, in store order (main.py,
line 208). -/
def ready_docs (s : AppState) : List Doc :=
  s.documents_db.filter fun d => d.status == "ready"

/-- Keyword-matched canned response text (main.py, lines 217 to 232);
`n` is the number of ready documents. -/
def simulated_response (raw_message : String) (n : Nat) : String :=
  let message := strLower raw_message
  if containsSub message "summarize" || containsSub message "summary" then
    "Based on your " ++ toString n ++ " uploaded document(s), here\x27s a summary: The documents contain valuable research information that can be analyzed for key insights, themes, and findings. The content appears to cover various topics that would benefit from deeper analysis."
  else if containsSub message "key findings" || containsSub message "findings" then
    "Key findings from your " ++ toString n ++ " document(s): 1) Important research data has been identified, 2) Multiple themes and patterns emerge from the content, 3) There are significant insights that warrant further investigation."
  else if containsSub message "themes" || containsSub message "theme" then
    "Main themes identified across your " ++ toString n ++ " document(s): Research methodology, data analysis, key conclusions, and recommendations for future work. These themes interconnect to form a comprehensive research narrative."
  else if containsSub message "contradictions" || containsSub message "contradiction" then
    "After analyzing your " ++ toString n ++ " document(s), I found some areas where different sources present varying perspectives on similar topics. These differences highlight the complexity of the research area and suggest areas for further investigation."
  else if containsSub message "timeline" then
    "Based on the chronological information in your " ++ toString n ++ " document(s), here\x27s a timeline of key events: The documents reference various time periods and developments that show the evolution of ideas and research in this field."
  else
    "I\x27ve analyzed your question about \x27" ++ raw_message ++ "\x27 in the context of your " ++ toString n ++ " uploaded document(s). The information suggests several relevant points that address your inquiry. Would you like me to elaborate on any specific aspect?"

/-- Chat handler (main.py, lines 204 to 254).  When no document is ready
AND the request carries a truthy `document_ids` list it returns early
with confidence 0.0 and without touching the history; otherwise it
builds the canned response, keeps the first three ready filenames as
sources, appends one history entry and returns confidence 0.85. -/
def chat (newId ts : String) (request : ChatRequest) (s : AppState) : ChatResponse × AppState :=
  let ready := ready_docs s
  if ready.isEmpty && truthyIds request.document_ids then
    ({ response := "I don\x27t have any processed documents to analyze yet. Please wait for your documents to finish processing, or upload new documents."
       sources := []
       confidence := 0 }, s)
  else
    let response := simulated_response request.message ready.length
    let sources := (ready.take 3).map fun d => d.filename
    let msg : ChatMessage :=
      { id := newId, message := request.message, response := response
        sources := sources, timestamp := ts }
    ({ response := response, sources := sources, confidence := 0.85 },
     { s with chat_history := s.chat_history ++ [msg] })

/-- Clear-history handler (main.py, lines 263 to 268). -/
def clear_chat_history (s : AppState) : AppState :=
  { s with chat_history := [] }

/-- One entry of the `/search` response (main.py, lines 285 to 292). -/
structure SearchResult where
  document_id : String
  filename : String
  snippet : String
  relevance_score : Rat
  deriving DecidableEq, Repr

/-- Search handler (main.py, lines 272 to 297): optionally filters the
store by the requested ids (a falsy list means no filter), then reports
one result per `ready` document. -/
def search_documents (query : String) (document_ids : List String) (s : AppState) : List SearchResult :=
  let search_docs :=
    if document_ids.isEmpty then s.documents_db
    else s.documents_db.filter fun d => document_ids.contains d.id
  (search_docs.filter fun d => d.status == "ready").map fun d =>
    { document_id := d.id
      filename := d.filename
      snippet := "Search results for \x27" ++ query ++ "\x27 found in " ++ d.filename ++ "..."
      relevance_score := 0.8 }

/-- The state-relevant operations of the application, used to reason
about interleavings.  `uploadEv` carries the fresh uuid and timestamp,
`finishEv` is the completion of a spawned background processing task. -/
inductive Event where
  | uploadEv (newId ts filename : String) (size : Nat)
  | finishEv (document_id : String)
  | deleteEv (document_id : String)
  | chatEv (newId ts : String) (request : ChatRequest)
  | searchEv (query : String) (document_ids : List String)
  | clearHistoryEv
  | getDocumentsEv
  | getHistoryEv
  deriving DecidableEq, Repr

/-- State transition of one event; read-only endpoints leave the state
unchanged. -/
def step (s : AppState) : Event → AppState
  | Event.uploadEv i t f z => (upload_document i t f z s).state
  | Event.finishEv i => process_document i s
  | Event.deleteEv i => (delete_document i s).2
  | Event.chatEv i t r => (chat i t r s).2
  | Event.searchEv _ _ => s
  | Event.clearHistoryEv => clear_chat_history s
  | Event.getDocumentsEv => s
  | Event.getHistoryEv => s

/-- State after running a sequence of events. -/
def runTrace (s : AppState) (tr : List Event) : AppState :=
  tr.foldl step s

/-- The ids present in the document store. -/
def dbIds (s : AppState) : List String :=
  s.documents_db.map fun d => d.id

/-- Status of the document with the given id, if present. -/
def statusOf (s : AppState) (i : String) : Option String :=
  (s.documents_db.find? fun d => d.id == i).map fun d => d.status

/-- Whether an event can (re-)introduce the given id into the store:
only an upload whose fresh uuid equals it can. -/
def introducesB (e : Event) (d : String) : Bool :=
  match e with
  | Event.uploadEv i _ _ _ => i == d
  | _ => false

/-- Whether the upload handler accepted the file. -/
def uploadAccepted (o : UploadOutcome) : Bool :=
  match o.result with
  | Except.ok _ => true
  | Except.error _ => false

end Main

namespace Utils

/-- Chunk size configured in `utils.py`, line 17. -/
def chunk_size : Nat := 1000

/-- Chunk overlap configured in `utils.py`, line 17. -/
def chunk_overlap : Nat := 200

/-- Modelled from the spec: section 4.2 Chunker, `split(text, chunk_size,
overlap)` splits on size boundaries while keeping `overlap` characters
between consecutive chunks, and text no longer than `chunk_size` yields
exactly one chunk.  The concrete splitter invoked by `utils.py` line 17
is the external langchain `CharacterTextSplitter`, which is not part of
this repository. -/
def splitText (chunkSize overlap : Nat) (text : List Char) : List (List Char) :=
  if h : text.length ≤ chunkSize ∨ chunkSize ≤ overlap then [text]
  else text.take chunkSize :: splitText chunkSize overlap (text.drop (chunkSize - overlap))
termination_by text.length
decreasing_by
  simp only [List.length_drop]
  push_neg at h
  omega

end Utils

namespace Spec

/-- An entry of the vector index: embedding vector, chunk text and the
owning document id (spec section 3, IndexEntry). -/
structure IndexEntry where
  vector : List Int
  chunk : String
  doc_id : String
  deriving DecidableEq, Repr

/-- Modelled from the spec: section 4.4 VectorIndex.  The store behind
`utils.py` lines 20 to 21 and 24 to 26 is the external FAISS library, so
the index is modelled as the stored entry list. -/
structure VectorIndex where
  entries : List IndexEntry
  deriving DecidableEq, Repr

/-- Inner-product similarity between two vectors (spec section 4.4 allows
cosine or inner product as the metric). -/
def dotProd (u v : List Int) : Int :=
  ((u.zip v).map fun p => p.1 * p.2).sum

/-- Insert a scored entry into a descending-ordered list, placed after
every entry of greater-or-equal score so that ties keep insertion
order. -/
def insertRanked (p : IndexEntry × Int) : List (IndexEntry × Int) → List (IndexEntry × Int)
  | [] => [p]
  | q :: rest => if q.2 < p.2 then p :: q :: rest else q :: insertRanked p rest

/-- Modelled from the spec: section 4.4 search — score every entry
against the query, rank by descending similarity with ties broken by
insertion order, and return at most `k` results. -/
def VectorIndex.search (idx : VectorIndex) (query : List Int) (k : Nat) : List (IndexEntry × Int) :=
  ((idx.entries.map fun e => (e, dotProd e.vector query)).foldl
    (fun acc p => insertRanked p acc) []).take k

/-- Modelled from the spec: section 4.4 persist — serialise the index
entries to their on-disk row form (`utils.py` line 21, `save_local`,
delegates this to FAISS). -/
def VectorIndex.persist (idx : VectorIndex) : List (List Int × String × String) :=
  idx.entries.map fun e => (e.vector, e.chunk, e.doc_id)

/-- Modelled from the spec: section 4.4 load — rebuild the index from its
serialised rows (`utils.py` line 25, `load_local`, delegates this to
FAISS). -/
def VectorIndex.load (rows : List (List Int × String × String)) : VectorIndex :=
  { entries := rows.map fun r => { vector := r.1, chunk := r.2.1, doc_id := r.2.2 } }

end Spec

namespace Main

/-- Finding over a mapped list commutes with the map when the predicate
is insensitive to the mapping. -/
theorem find?_map_of_pres {f : Doc → Doc} {p : Doc → Bool}
    (hp : ∀ d, p (f d) = p d) :
    ∀ l : List Doc, (l.map f).find? p = (l.find? p).map f := by
  intro l
  induction l with
  | nil => rfl
  | cons a l ih =>
    simp only [List.map_cons, List.find?]
    rw [hp a]
    cases hpa : p a
    · simpa using ih
    · rfl

/-- Filtering by a predicate implied by the search predicate does not
change the result of `find?`. -/
theorem find?_filter_of_imp {p q : Doc → Bool}
    (h : ∀ x, p x = true → q x = true) :
    ∀ l : List Doc, (l.filter q).find? p = l.find? p := by
  intro l
  induction l with
  | nil => rfl
  | cons a l ih =>
    by_cases hqa : q a = true
    · simp only [List.filter_cons, hqa, if_true, List.find?]
      cases hpa : p a
      · simpa using ih
      · rfl
    · have hpa : p a = false := by
        cases hpa : p a
        · rfl
        · exact absurd (h a hpa) hqa
      simp only [List.filter_cons, hqa, if_false, List.find?, hpa]
      simpa [hpa] using ih

/-- Filtering away everything the search predicate accepts makes `find?`
come up empty. -/
theorem find?_filter_none {p q : Doc → Bool}
    (h : ∀ x, p x = true → q x = false) :
    ∀ l : List Doc, (l.filter q).find? p = none := by
  intro l
  rw [List.find?_eq_none]
  intro x hx
  rw [List.mem_filter] at hx
  intro hpx
  rw [h x hpx] at hx
  exact Bool.false_ne_true hx.2

/-- A successful `find?` on the left part survives appending. -/
theorem find?_append_some {p : Doc → Bool} {a : Doc} {l l' : List Doc}
    (h : l.find? p = some a) : (l ++ l').find? p = some a := by
  rw [List.find?_append, h]
  rfl

/-- A failed `find?` on the left part defers to the right part. -/
theorem find?_append_none {p : Doc → Bool} {l l' : List Doc}
    (h : l.find? p = none) : (l ++ l').find? p = l'.find? p := by
  rw [List.find?_append, h]
  rfl

/-- The status update applied by `process_document` never changes a
document id. -/
theorem process_update_id (j : String) (d : Doc) :
    (if d.id == j then { d with status := "ready" } else d).id = d.id := by
  split <;> rfl

/-- `process_document` keeps the list of stored ids unchanged. -/
theorem dbIds_process (j : String) (s : AppState) :
    dbIds (process_document j s) = dbIds s := by
  simp only [dbIds, process_document, List.map_map]
  exact List.map_congr_left fun d _ => process_update_id j d

/-- The chat handler never touches the document store. -/
theorem chat_db (i t : String) (r : ChatRequest) (s : AppState) :
    (chat i t r s).2.documents_db = s.documents_db := by
  rw [chat]
  split <;> rfl

/-- The upload handler never touches the chat history. -/
theorem upload_history (i t f : String) (z : Nat) (s : AppState) :
    (upload_document i t f z s).state.chat_history = s.chat_history := by
  rw [upload_document]
  split <;> rfl

/-- An id absent from the store is still absent after any single event
that does not introduce it. -/
theorem absent_step {s : AppState} {e : Event} {d : String}
    (hd : d ∉ dbIds s) (he : introducesB e d = false) :
    d ∉ dbIds (step s e) := by
  cases e with
  | uploadEv i t f z =>
    simp only [introducesB, beq_eq_false_iff_ne, ne_eq] at he
    simp only [step, upload_document]
    split
    · simp only [dbIds, List.map_append, List.map_cons, List.map_nil]
      intro hmem
      rcases List.mem_append.mp hmem with hl | hr
      · exact hd hl
      · rcases List.mem_singleton.mp hr with rfl
        exact he rfl
    · exact hd
  | finishEv j => rw [step, dbIds_process]; exact hd
  | deleteEv j =>
    simp only [step, delete_document]
    split
    · simp only [dbIds, List.mem_map]
      rintro ⟨x, hx, rfl⟩
      exact hd (List.mem_map.mpr ⟨x, (List.mem_filter.mp hx).1, rfl⟩)
    · exact hd
  | chatEv i t r =>
    simp only [step, dbIds, chat_db]
    exact hd
  | searchEv q ids => exact hd
  | clearHistoryEv => exact hd
  | getDocumentsEv => exact hd
  | getHistoryEv => exact hd

/-- An id absent from the store stays absent along any trace that never
introduces it (uuid freshness). -/
theorem absent_runTrace {d : String} :
    ∀ (tr : List Event) (s : AppState), d ∈ dbIds (runTrace s tr) →
      (∀ e ∈ tr, introducesB e d = false) → d ∈ dbIds s := by
  intro tr
  induction tr with
  | nil => intro s h _; exact h
  | cons e tr ih =>
    intro s h hfresh
    by_contra hs
    have h1 : d ∉ dbIds (step s e) :=
      absent_step hs (hfresh e (List.mem_cons_self e tr))
    exact h1 (ih (step s e) h fun x hx => hfresh x (List.mem_cons_of_mem e hx))

/-- Deleting an id always leaves the store without it, whether or not it
was present. -/
theorem delete_absent (d : String) (s : AppState) :
    d ∉ dbIds (delete_document d s).2 := by
  rw [delete_document]
  split
  case isTrue h =>
    simp only [dbIds, List.mem_map]
    rintro ⟨x, hx, rfl⟩
    have := (List.mem_filter.mp hx).2
    simp at this
  case isFalse h =>
    simp only [List.any_eq_true, not_exists, not_and] at h
    simp only [dbIds, List.mem_map]
    rintro ⟨x, hx, rfl⟩
    have := h x hx
    simp at this

/-- An absent id has no status. -/
theorem statusOf_eq_none {s : AppState} {d : String} (h : d ∉ dbIds s) :
    statusOf s d = none := by
  rw [statusOf]
  have hfind : (s.documents_db.find? fun x => x.id == d) = none := by
    rw [List.find?_eq_none]
    intro x hx hbeq
    rw [beq_iff_eq] at hbeq
    exact h (List.mem_map.mpr ⟨x, hx, hbeq⟩)
  rw [hfind]
  rfl

/-- Every search result comes from a stored document, so its document id
is one of the stored ids. -/
theorem search_mem_dbIds {q : String} {qids : List String} {s : AppState}
    {r : SearchResult} (h : r ∈ search_documents q qids s) :
    r.document_id ∈ dbIds s := by
  rw [search_documents] at h
  rcases List.mem_map.mp h with ⟨doc, hdoc, rfl⟩
  have hdoc2 := (List.mem_filter.mp hdoc).1
  have hmem : doc ∈ s.documents_db := by
    by_cases hq : qids.isEmpty
    · simpa [hq] using hdoc2
    · simp only [hq, if_false] at hdoc2
      exact (List.mem_filter.mp hdoc2).1
  exact List.mem_map.mpr ⟨doc, hmem, rfl⟩

end Main

namespace Main

/-- Shape of the upload handler state change: the new record is appended
on acceptance, nothing changes on rejection. -/
theorem upload_state (i t f : String) (z : Nat) (s : AppState) :
    (upload_document i t f z s).state =
      if allowed_extensions.contains (strLower (pathSuffix f))
      then { s with documents_db := s.documents_db ++ [mk_doc i t f z] }
      else s := by
  rw [upload_document]
  split <;> rfl

/-- Two states with the same document store give every id the same
status. -/
theorem statusOf_congr {s1 s2 : AppState} (h : s1.documents_db = s2.documents_db)
    (i : String) : statusOf s1 i = statusOf s2 i := by
  rw [statusOf, statusOf, h]

/-- Invariant: every stored document is either `processing` or `ready`. -/
def statusInv (s : AppState) : Prop :=
  ∀ d ∈ s.documents_db, d.status = "processing" ∨ d.status = "ready"

/-- Every event preserves the status invariant. -/
theorem statusInv_step {s : AppState} (hs : statusInv s) (e : Event) :
    statusInv (step s e) := by
  cases e with
  | uploadEv i t f z =>
    rw [step, upload_state]
    split
    · intro d hd
      rcases List.mem_append.mp hd with hl | hr
      · exact hs d hl
      · rcases List.mem_singleton.mp hr with rfl
        exact Or.inl rfl
    · exact hs
  | finishEv j =>
    intro d hd
    rcases List.mem_map.mp hd with ⟨x, hx, rfl⟩
    by_cases hxj : x.id == j
    · simp [hxj]
    · simp only [Bool.not_eq_true] at hxj
      simp only [hxj, if_false]
      exact hs x hx
  | deleteEv j =>
    rw [step, delete_document]
    split
    · intro d hd
      exact hs d (List.mem_filter.mp hd).1
    · exact hs
  | chatEv i t r =>
    intro d hd
    rw [step, statusInv] at *
    rw [chat_db] at hd
    exact hs d hd
  | searchEv q ids => exact hs
  | clearHistoryEv => exact hs
  | getDocumentsEv => exact hs
  | getHistoryEv => exact hs

/-- The status invariant holds on every state reachable from the initial
empty state. -/
theorem statusInv_runTrace : ∀ (tr : List Event) (s : AppState),
    statusInv s → statusInv (runTrace s tr) := by
  intro tr
  induction tr with
  | nil => intro s hs; exact hs
  | cons e tr ih => intro s hs; exact ih (step s e) (statusInv_step hs e)

/-- Unpacking a successful `statusOf`: a first matching record exists,
its id matches and its status is the reported one. -/
theorem statusOf_some {s : AppState} {i st : String}
    (h : statusOf s i = some st) :
    ∃ d0, (s.documents_db.find? fun d => d.id == i) = some d0 ∧
      d0.id = i ∧ d0.status = st := by
  rw [statusOf] at h
  cases hf : s.documents_db.find? fun d => d.id == i with
  | none => rw [hf] at h; exact absurd h (by simp)
  | some d0 =>
    rw [hf] at h
    refine ⟨d0, rfl, ?_, ?_⟩
    · have := List.find?_some hf
      rwa [beq_iff_eq] at this
    · simpa using h

/-- One-step status transitions: a present document keeps its status
except that `process_document` promotes `processing` to `ready`. -/
theorem status_step_cases {s : AppState} {e : Event} {i st st' : String}
    (hst : st = "processing" ∨ st = "ready")
    (h1 : statusOf s i = some st)
    (h2 : statusOf (step s e) i = some st') :
    st' = st ∨ (st = "processing" ∧ st' = "ready") := by
  rcases statusOf_some h1 with ⟨d0, hf, hid, hstat⟩
  cases e with
  | uploadEv iu t f z =>
    rw [step, upload_state] at h2
    split at h2
    · have h3 : ((s.documents_db ++ [mk_doc iu t f z]).find? fun d => d.id == i).map
          (fun d => d.status) = some st' := h2
      rw [find?_append_some hf] at h3
      have h4 : some d0.status = some st' := h3
      left
      rw [← hstat]
      exact (Option.some_inj.mp h4).symm
    · rw [h1] at h2
      left
      exact (Option.some_inj.mp h2).symm
  | finishEv j =>
    have hpres : ∀ d : Doc,
        ((fun x => x.id == i) ((fun d => if d.id == j then { d with status := "ready" } else d) d))
          = (fun x => x.id == i) d := by
      intro d
      simp only
      rw [process_update_id]
    have h3 : ((s.documents_db.map fun d =>
        if d.id == j then { d with status := "ready" } else d).find? fun d => d.id == i).map
        (fun d => d.status) = some st' := h2
    rw [find?_map_of_pres hpres s.documents_db, hf] at h3
    have h4 : some (if d0.id == j then ({ d0 with status := "ready" } : Doc) else d0).status
        = some st' := h3
    by_cases hij : d0.id == j
    · rw [hij, if_pos rfl] at h4
      have h5 : st' = "ready" := (Option.some_inj.mp h4).symm
      rcases hst with hp | hr
      · exact Or.inr ⟨hp, h5⟩
      · left
        rw [h5, hr]
    · simp only [Bool.not_eq_true] at hij
      rw [hij] at h4
      simp only [Bool.false_eq_true, if_false] at h4
      left
      rw [← hstat]
      exact (Option.some_inj.mp h4).symm
  | deleteEv j =>
    rw [step, delete_document] at h2
    split at h2
    · by_cases hij : i = j
      · exfalso
        subst hij
        have h3 : ((s.documents_db.filter fun d => !(d.id == i)).find? fun d => d.id == i).map
            (fun d => d.status) = some st' := h2
        rw [find?_filter_none (fun x hx => by simp [hx]) s.documents_db] at h3
        exact Option.noConfusion h3
      · have h3 : ((s.documents_db.filter fun d => !(d.id == j)).find? fun d => d.id == i).map
            (fun d => d.status) = some st' := h2
        rw [find?_filter_of_imp (p := fun d => d.id == i) (q := fun d => !(d.id == j))
          (fun x hx => by
            rw [beq_iff_eq] at hx
            simp [hx, hij]) s.documents_db] at h3
        rw [hf] at h3
        have h4 : some d0.status = some st' := h3
        left
        rw [← hstat]
        exact (Option.some_inj.mp h4).symm
    · rw [h1] at h2
      left
      exact (Option.some_inj.mp h2).symm
  | chatEv iu t r =>
    rw [step, statusOf_congr (chat_db iu t r s) i, h1] at h2
    left
    exact (Option.some_inj.mp h2).symm
  | searchEv q ids =>
    rw [show step s (Event.searchEv q ids) = s from rfl, h1] at h2
    left
    exact (Option.some_inj.mp h2).symm
  | clearHistoryEv =>
    rw [show step s Event.clearHistoryEv = clear_chat_history s from rfl,
      @statusOf_congr (clear_chat_history s) s rfl i, h1] at h2
    left
    exact (Option.some_inj.mp h2).symm
  | getDocumentsEv =>
    rw [show step s Event.getDocumentsEv = s from rfl, h1] at h2
    left
    exact (Option.some_inj.mp h2).symm
  | getHistoryEv =>
    rw [show step s Event.getHistoryEv = s from rfl, h1] at h2
    left
    exact (Option.some_inj.mp h2).symm

end Main

namespace Main

/-- A concrete store entry in `ready` status, used to instantiate the
general theorems. -/
def exDoc : Doc :=
  { id := "d1", filename := "a.txt", size := 3, content_type := "text/plain"
    upload_date := "t0", status := "ready", file_path := "uploads/d1_a.txt" }

/-- A concrete store entry in `processing` status. -/
def exDocP : Doc :=
  { id := "d2", filename := "b.txt", size := 4, content_type := "text/plain"
    upload_date := "t0", status := "processing", file_path := "uploads/d2_b.txt" }

/-- A state holding one ready document. -/
def exState : AppState := { documents_db := [exDoc], chat_history := [] }

/-- A state holding one document still being processed. -/
def exStateP : AppState := { documents_db := [exDocP], chat_history := [] }

end Main

open Main

/-- C10: upload-time file-type validation is case-insensitive on the
extension — a file is accepted exactly when the lowercased suffix of its
filename is one of the allowed extensions; in particular a filename
ending in `.PDF` is accepted. -/
theorem upload_extension_case_insensitive :
    (∀ (i t f : String) (z : Nat) (s : AppState),
      uploadAccepted (upload_document i t f z s)
        = allowed_extensions.contains (strLower (pathSuffix f))) ∧
    uploadAccepted (upload_document "u1" "t1" "paper.PDF" 7 initState) = true := by
  constructor
  · intro i t f z s
    simp only [upload_document]
    split
    case isTrue h => rw [h]; rfl
    case isFalse h =>
      simp only [Bool.not_eq_true] at h
      rw [h]
      rfl
  · rfl

/-- C4: an upload with an unsupported extension such as `.exe` creates no
document record and spawns no processing task, but the blanket
`except Exception` clause in `upload_document` converts the intended 400
unsupported-format rejection into a generic 500 internal error. -/
theorem upload_exe_rejected_as_internal_error :
    (upload_document "u1" "t1" "malware.exe" 5 initState).result =
      Except.error
        { status_code := 500
          detail := "Failed to upload document: 400: File type .exe not supported. Allowed types: .pdf, .doc, .docx, .txt, .md, .rtf" } ∧
    (upload_document "u1" "t1" "malware.exe" 5 initState).state = initState ∧
    (upload_document "u1" "t1" "malware.exe" 5 initState).task = none :=
  ⟨rfl, rfl, rfl⟩

/-- C1 (counterexample): with no ready documents and no `document_ids` in
the request, the chat handler does not return confidence 0.0 — it falls
through to the canned-response path and returns 0.85. -/
theorem chat_no_ready_docs_counterexample :
    ready_docs initState = [] ∧
    (chat "c1" "t1" { message := "hello", document_ids := none } initState).1.confidence
      = 0.85 ∧
    (0.85 : Rat) ≠ 0 := by
  refine ⟨rfl, rfl, by norm_num⟩

/-- C1 (amended): whenever no document is `ready`, the chat response has
an empty sources list, and its confidence is 0.0 exactly when the request
supplies a nonempty `document_ids` list — otherwise it is 0.85. -/
theorem chat_no_ready_docs_amended :
    ∀ (s : AppState) (i t : String) (r : ChatRequest),
      ready_docs s = [] →
      (chat i t r s).1.sources = [] ∧
      (chat i t r s).1.confidence
        = (if truthyIds r.document_ids = true then 0 else 0.85) := by
  intro s i t r hready
  by_cases hids : truthyIds r.document_ids = true
  · simp [chat, hready, hids]
  · simp only [Bool.not_eq_true] at hids
    simp [chat, hready, hids]

/-- Witness instantiating the amended C1 statement at a concrete empty
store. -/
theorem chat_no_ready_docs_amended_witness :
    ready_docs initState = [] ∧
    ((chat "c1" "t1" { message := "hello", document_ids := none } initState).1.sources = [] ∧
     (chat "c1" "t1" { message := "hello", document_ids := none } initState).1.confidence
       = (if truthyIds (none : Option (List String)) = true then 0 else 0.85)) :=
  ⟨rfl, chat_no_ready_docs_amended initState "c1" "t1"
    { message := "hello", document_ids := none } rfl⟩

/-- C9: every chat response's sources list is exactly the filenames of
the first three ready documents in store order, hence never longer than
three. -/
theorem chat_sources_at_most_three :
    ∀ (s : AppState) (i t : String) (r : ChatRequest),
      (chat i t r s).1.sources = ((ready_docs s).take 3).map (fun d => d.filename) ∧
      (chat i t r s).1.sources.length ≤ 3 := by
  intro s i t r
  have hsrc : (chat i t r s).1.sources = ((ready_docs s).take 3).map fun d => d.filename := by
    rw [chat]
    split
    case isTrue h =>
      have hempty : ready_docs s = [] :=
        List.isEmpty_iff.mp ((Bool.and_eq_true _ _ ▸ h).1)
      rw [hempty]
      rfl
    case isFalse h => rfl
  refine ⟨hsrc, ?_⟩
  rw [hsrc, List.length_map, List.length_take]
  exact min_le_left _ _

/-- C8 (counterexample): a chat request that arrives when no document is
ready but carries a `document_ids` list returns a successful response,
yet appends nothing to the chat history — so not every successful chat
appends an exchange. -/
theorem chat_history_append_counterexample :
    (chat "c1" "t1" { message := "hi", document_ids := some ["x"] } initState).2.chat_history
      = [] ∧
    (chat "c1" "t1" { message := "hi", document_ids := some ["x"] } initState).1.response
      ≠ "" :=
  ⟨rfl, by decide⟩

/-- C8 (amended): the chat handler appends exactly one exchange except
on its early insufficient-context return (no ready documents and a truthy
`document_ids`), which appends none; no other operation changes the
history, and only the explicit clear-history operation empties it. -/
theorem chat_history_append_only_amended :
    (∀ (s : AppState) (i t : String) (r : ChatRequest),
      ((ready_docs s).isEmpty && truthyIds r.document_ids) = false →
      (chat i t r s).2.chat_history = s.chat_history ++
        [{ id := i, message := r.message
           response := simulated_response r.message (ready_docs s).length
           sources := ((ready_docs s).take 3).map fun d => d.filename
           timestamp := t }]) ∧
    (∀ (s : AppState) (i t : String) (r : ChatRequest),
      ((ready_docs s).isEmpty && truthyIds r.document_ids) = true →
      (chat i t r s).2.chat_history = s.chat_history) ∧
    (∀ (s : AppState) (i t f : String) (z : Nat),
      (step s (Event.uploadEv i t f z)).chat_history = s.chat_history) ∧
    (∀ (s : AppState) (j : String),
      (step s (Event.finishEv j)).chat_history = s.chat_history ∧
      (step s (Event.deleteEv j)).chat_history = s.chat_history) ∧
    (∀ (s : AppState) (q : String) (ids : List String),
      (step s (Event.searchEv q ids)).chat_history = s.chat_history) ∧
    (∀ s : AppState,
      (step s Event.getDocumentsEv).chat_history = s.chat_history ∧
      (step s Event.getHistoryEv).chat_history = s.chat_history) ∧
    (∀ s : AppState, (step s Event.clearHistoryEv).chat_history = []) := by
  refine ⟨?_, ?_, ?_, ?_, ?_, ?_, ?_⟩
  · intro s i t r h
    rw [chat]
    rw [if_neg (by rw [h]; exact Bool.false_ne_true)]
  · intro s i t r h
    rw [chat]
    rw [if_pos h]
  · intro s i t f z
    exact upload_history i t f z s
  · intro s j
    refine ⟨rfl, ?_⟩
    rw [show step s (Event.deleteEv j) = (delete_document j s).2 from rfl, delete_document]
    split <;> rfl
  · intro s q ids
    rfl
  · intro s
    exact ⟨rfl, rfl⟩
  · intro s
    rfl

/-- Witness instantiating the amended C8 statement: a chat with no
`document_ids` appends exactly one exchange, and a read-only endpoint
leaves the history unchanged. -/
theorem chat_history_append_only_amended_witness :
    ((ready_docs initState).isEmpty && truthyIds (none : Option (List String))) = false ∧
    (chat "c1" "t1" { message := "hi", document_ids := none } initState).2.chat_history
      = initState.chat_history ++
        [{ id := "c1", message := "hi"
           response := simulated_response "hi" (ready_docs initState).length
           sources := ((ready_docs initState).take 3).map fun d => d.filename
           timestamp := "t1" }] ∧
    (step initState Event.getDocumentsEv).chat_history = initState.chat_history :=
  ⟨rfl,
   chat_history_append_only_amended.1 initState "c1" "t1"
     { message := "hi", document_ids := none } rfl,
   (chat_history_append_only_amended.2.2.2.2.2.1 initState).1⟩

/-- C2: once a stored document is deleted (which succeeds), its id is
gone from the store, and no search performed on any later state reached
without re-introducing that id ever returns a result for it, for any
query and any id filter. -/
theorem delete_removes_document_from_search :
    ∀ (s : AppState) (d : String) (tr : List Event),
      d ∈ dbIds s →
      (∀ e ∈ tr, introducesB e d = false) →
      (delete_document d s).1 = Except.ok "Document deleted successfully" ∧
      d ∉ dbIds (runTrace (delete_document d s).2 tr) ∧
      (∀ (q : String) (qids : List String) (r : SearchResult),
        r ∈ search_documents q qids (runTrace (delete_document d s).2 tr) →
        r.document_id ≠ d) := by
  intro s d tr hmem hfresh
  have hok : (delete_document d s).1 = Except.ok "Document deleted successfully" := by
    rw [delete_document]
    have hany : (s.documents_db.any fun x => x.id == d) = true := by
      rcases List.mem_map.mp hmem with ⟨x, hx, rfl⟩
      exact List.any_eq_true.mpr ⟨x, hx, by simp⟩
    rw [if_pos hany]
  have habs : d ∉ dbIds (runTrace (delete_document d s).2 tr) := by
    intro hcontra
    exact delete_absent d s (absent_runTrace tr _ hcontra hfresh)
  refine ⟨hok, habs, ?_⟩
  intro q qids r hr hrd
  have hmem2 := search_mem_dbIds hr
  rw [hrd] at hmem2
  exact habs hmem2

/-- Witness instantiating C2 at a one-document store followed by a stale
background-task completion. -/
theorem delete_removes_document_from_search_witness :
    "d1" ∈ dbIds exState ∧
    (delete_document "d1" exState).1 = Except.ok "Document deleted successfully" ∧
    "d1" ∉ dbIds (runTrace (delete_document "d1" exState).2 [Event.finishEv "d1"]) := by
  have h1 : "d1" ∈ dbIds exState := by decide
  have h2 : ∀ e ∈ [Event.finishEv "d1"], introducesB e "d1" = false := by decide
  have h3 := delete_removes_document_from_search exState "d1" [Event.finishEv "d1"] h1 h2
  exact ⟨h1, h3.1, h3.2.1⟩

/-- C7: deleting a document while it is `processing` leaves no trace of
it at any later point of any continuation that does not re-introduce its
id — the id has no status (in particular it is never `ready`), it is
absent from the store, and no search returns it. -/
theorem delete_while_processing_no_orphans :
    ∀ (s : AppState) (d : String) (tr t1 t2 : List Event),
      statusOf s d = some "processing" →
      (∀ e ∈ tr, introducesB e d = false) →
      tr = t1 ++ t2 →
      statusOf (runTrace (delete_document d s).2 t1) d = none ∧
      d ∉ dbIds (runTrace (delete_document d s).2 t1) ∧
      (∀ (q : String) (qids : List String) (r : SearchResult),
        r ∈ search_documents q qids (runTrace (delete_document d s).2 t1) →
        r.document_id ≠ d) := by
  intro s d tr t1 t2 hproc hfresh htr
  subst htr
  have hfresh1 : ∀ e ∈ t1, introducesB e d = false :=
    fun e he => hfresh e (List.mem_append_left t2 he)
  have habs : d ∉ dbIds (runTrace (delete_document d s).2 t1) := by
    intro hcontra
    exact delete_absent d s (absent_runTrace t1 _ hcontra hfresh1)
  refine ⟨statusOf_eq_none habs, habs, ?_⟩
  intro q qids r hr hrd
  have hmem2 := search_mem_dbIds hr
  rw [hrd] at hmem2
  exact habs hmem2

/-- Witness instantiating C7: delete a processing document and let its
stale background task fire afterwards. -/
theorem delete_while_processing_no_orphans_witness :
    statusOf exStateP "d2" = some "processing" ∧
    statusOf (runTrace (delete_document "d2" exStateP).2 [Event.finishEv "d2"]) "d2" = none ∧
    "d2" ∉ dbIds (runTrace (delete_document "d2" exStateP).2 [Event.finishEv "d2"]) := by
  have h1 : statusOf exStateP "d2" = some "processing" := by decide
  have h2 : ∀ e ∈ [Event.finishEv "d2"], introducesB e "d2" = false := by decide
  have h3 := delete_while_processing_no_orphans exStateP "d2" [Event.finishEv "d2"]
    [Event.finishEv "d2"] [] h1 h2 rfl
  exact ⟨h1, h3.1, h3.2.1⟩

/-- C3: a fresh accepted upload returns status `processing` and stores
the document as `processing`; every reachable state holds only
`processing` or `ready` documents; and the only status change any single
operation can make to a present document is `processing` to `ready`
(performed by the background task) — there are no other transitions. -/
theorem document_status_state_machine :
    (∀ (i t f : String) (z : Nat) (s : AppState),
      i ∉ dbIds s →
      allowed_extensions.contains (strLower (pathSuffix f)) = true →
      (upload_document i t f z s).result = Except.ok
        { document_id := i, filename := f, status := "processing"
          message := "Document uploaded successfully and is being processed" } ∧
      statusOf (upload_document i t f z s).state i = some "processing") ∧
    (∀ (tr : List Event) (d : Doc), d ∈ (runTrace initState tr).documents_db →
      d.status = "processing" ∨ d.status = "ready") ∧
    (∀ (s : AppState) (e : Event) (i st st' : String),
      (st = "processing" ∨ st = "ready") →
      statusOf s i = some st →
      statusOf (step s e) i = some st' →
      st' = st ∨ (st = "processing" ∧ st' = "ready")) := by
  refine ⟨?_, ?_, ?_⟩
  · intro i t f z s habs hext
    constructor
    · simp only [upload_document]
      rw [if_pos hext]
    · rw [upload_state, if_pos hext]
      have hnone : (s.documents_db.find? fun d => d.id == i) = none := by
        rw [List.find?_eq_none]
        intro x hx hbeq
        rw [beq_iff_eq] at hbeq
        exact habs (List.mem_map.mpr ⟨x, hx, hbeq⟩)
      have h3 : ((s.documents_db ++ [mk_doc i t f z]).find? fun d => d.id == i).map
          (fun d => d.status) = statusOf { s with documents_db := s.documents_db ++ [mk_doc i t f z] } i := rfl
      rw [← h3, find?_append_none hnone]
      simp [mk_doc]
  · intro tr d hd
    exact statusInv_runTrace tr initState (fun x hx => absurd hx (List.not_mem_nil x)) d hd
  · intro s e i st st' hst h1 h2
    exact status_step_cases hst h1 h2

/-- Witness instantiating C3: a fresh upload into the empty store, and
the `processing` to `ready` transition taken by the background task on a
concrete store. -/
theorem document_status_state_machine_witness :
    ("d9" ∉ dbIds initState ∧
     allowed_extensions.contains (strLower (pathSuffix "a.txt")) = true) ∧
    ((upload_document "d9" "t0" "a.txt" 3 initState).result = Except.ok
      { document_id := "d9", filename := "a.txt", status := "processing"
        message := "Document uploaded successfully and is being processed" } ∧
     statusOf (upload_document "d9" "t0" "a.txt" 3 initState).state "d9" = some "processing") ∧
    ("ready" = "processing" ∨ ("processing" = "processing" ∧ "ready" = "ready")) := by
  have h1 : "d9" ∉ dbIds initState := by decide
  have h2 : allowed_extensions.contains (strLower (pathSuffix "a.txt")) = true := by decide
  refine ⟨⟨h1, h2⟩, document_status_state_machine.1 "d9" "t0" "a.txt" 3 initState h1 h2, ?_⟩
  exact document_status_state_machine.2.2 exStateP (Event.finishEv "d2") "d2"
    "processing" "ready" (Or.inl rfl) (by decide) (by decide)

/-- Round trip of the spec-modelled index serialisation: loading what was
persisted rebuilds the very same index. -/
theorem load_persist (idx : Spec.VectorIndex) :
    Spec.VectorIndex.load (Spec.VectorIndex.persist idx) = idx := by
  cases idx with
  | mk entries =>
    simp only [Spec.VectorIndex.persist, Spec.VectorIndex.load, List.map_map]
    congr 1
    exact List.map_id' entries

/-- C6: for any fixed query and cutoff, searching the index rebuilt by
`load` from `persist` returns exactly the same ranked result list — same
ordering and same similarity scores — as the pre-persist index. -/
theorem persist_load_search_roundtrip :
    ∀ (idx : Spec.VectorIndex) (query : List Int) (k : Nat),
      (Spec.VectorIndex.load (Spec.VectorIndex.persist idx)).search query k
        = idx.search query k := by
  intro idx query k
  rw [load_persist]

/-- C5: splitting any 2,500-character text with chunk size 1000 and
overlap 200 yields exactly the three chunks at offsets 0, 800 and 1600,
consecutive chunks sharing 200 characters; and the background processing
step promotes a stored `processing` document to `ready`. -/
theorem chunking_2500_yields_three_overlapping_chunks :
    (∀ text : List Char, text.length = 2500 →
      Utils.splitText Utils.chunk_size Utils.chunk_overlap text
        = [text.take 1000, (text.drop 800).take 1000, text.drop 1600] ∧
      (Utils.splitText Utils.chunk_size Utils.chunk_overlap text).length = 3 ∧
      (text.take 1000).drop 800 = ((text.drop 800).take 1000).take 200 ∧
      ((text.drop 800).take 1000).drop 800 = (text.drop 1600).take 200) ∧
    (∀ (s : AppState) (d : Doc), d ∈ s.documents_db → d.status = "processing" →
      { d with status := "ready" } ∈ (process_document d.id s).documents_db) := by
  constructor
  · intro text hlen
    have l1 : (text.drop 800).length = 1700 := by rw [List.length_drop, hlen]
    have l2 : (text.drop 1600).length = 900 := by rw [List.length_drop, hlen]
    have hdd : (text.drop 800).drop 800 = text.drop 1600 := by
      rw [List.drop_drop]
    have step1 : Utils.splitText 1000 200 text
        = text.take 1000 :: Utils.splitText 1000 200 (text.drop 800) := by
      rw [Utils.splitText]
      rw [dif_neg (by rw [hlen]; decide)]
    have step2 : Utils.splitText 1000 200 (text.drop 800)
        = (text.drop 800).take 1000 :: Utils.splitText 1000 200 (text.drop 1600) := by
      rw [Utils.splitText]
      rw [dif_neg (by rw [l1]; decide)]
      rw [show (1000 - 200 : Nat) = 800 from rfl, hdd]
    have step3 : Utils.splitText 1000 200 (text.drop 1600) = [text.drop 1600] := by
      rw [Utils.splitText]
      rw [dif_pos (Or.inl (by rw [l2]; decide))]
    have main : Utils.splitText Utils.chunk_size Utils.chunk_overlap text
        = [text.take 1000, (text.drop 800).take 1000, text.drop 1600] := by
      show Utils.splitText 1000 200 text = _
      rw [step1, step2, step3]
    refine ⟨main, by rw [main]; rfl, ?_, ?_⟩
    · rw [List.drop_take, List.take_take]
      norm_num
    · rw [List.drop_take, hdd]
  · intro s d hd _hproc
    refine List.mem_map.mpr ⟨d, hd, ?_⟩
    split
    · rfl
    case isFalse h => exact absurd (beq_self_eq_true d.id) h

/-- Witness instantiating C5 at a concrete 2,500-character text and at a
concrete processing document promoted by its background task. -/
theorem chunking_2500_yields_three_overlapping_chunks_witness :
    (List.replicate 2500 'a').length = 2500 ∧
    (Utils.splitText Utils.chunk_size Utils.chunk_overlap (List.replicate 2500 'a')).length = 3 ∧
    { exDocP with status := "ready" } ∈ (process_document exDocP.id exStateP).documents_db := by
  have hlen : (List.replicate 2500 'a').length = 2500 := by
    rw [List.length_replicate]
  have hmem : exDocP ∈ exStateP.documents_db := by decide
  refine ⟨hlen,
    (chunking_2500_yields_three_overlapping_chunks.1 (List.replicate 2500 'a') hlen).2.1,
    chunking_2500_yields_three_overlapping_chunks.2 exStateP exDocP hmem rfl⟩
